import Mathlib

set_option maxRecDepth 8000

attribute [local semireducible] Rat.add Rat.mul Rat.sub Rat.inv Rat.ofScientific

/-!
# Verification of the WarnPing relay (`src/server.js`)

A shallow embedding of the warning-lifecycle core of the relay server:
the SQLite-backed warning store, the `setTimeout`-based expiry scheduler,
the issue/expire command handlers and the dual-transport fan-out.

Modelling conventions:
* Instants are `Int` milliseconds since the Unix epoch (the value of
  `Date.prototype.getTime` / `Date.now()`).
* JavaScript numbers are modelled as exact rationals `ℚ` (every payload
  value exercised here is exactly representable; `NaN`/`Infinity` inputs
  are rejected by the `Number.isFinite` guard in the source and are not
  modelled as separate values).
* `JSON.stringify`/`JSON.parse` of the polygon field: the `polygon TEXT`
  column always holds `JSON.stringify` of the payload value and is only
  ever read back through `JSON.parse`; since that pair is the identity on
  the values involved, the column is modelled as holding the structured
  `Json` value itself.
* `new Date(s)` / `Date.prototype.toISOString` / SQLite `datetime()` are
  modelled by an executable Gregorian-calendar converter over the ISO-8601
  UTC format `YYYY-MM-DDTHH:MM:SS.sssZ` (the exact format `toISOString`
  emits and the relay stores).  The model's ISO reader accepts only that
  canonical shape; the engines accept additional forms, so the modelled
  read is partial on inputs the relay never produces itself.
-/

/-! ## Gregorian calendar arithmetic

Day counts are relative to 0000-03-01 (era-based, following the standard
civil-calendar algorithms); `epochDays` shifts to 1970-01-01.
-/

/-- Days before era-year `k` (a year counted from March 1), `0 ≤ k ≤ 400`:
365 per year plus one per leap era-year. -/
def sy (k : Nat) : Nat := 365 * k + k / 4 - k / 100 + k / 400

/-- Year-of-era from day-of-era: estimate by `doe / 365`, correct downward. -/
def yoeOf (doe : Nat) : Nat :=
  if doe < sy (doe / 365) then doe / 365 - 1 else doe / 365

/-- Cumulative days before March-based month `mp` (0 = March … 11 = February). -/
def cd (mp : Nat) : Nat :=
  if mp = 0 then 0 else if mp = 1 then 31 else if mp = 2 then 61
  else if mp = 3 then 92 else if mp = 4 then 122 else if mp = 5 then 153
  else if mp = 6 then 184 else if mp = 7 then 214 else if mp = 8 then 245
  else if mp = 9 then 275 else if mp = 10 then 306 else 337

/-- March-based month from day-of-year (`0 ≤ doy ≤ 365`). -/
def mpOf (doy : Nat) : Nat :=
  if doy < 31 then 0 else if doy < 61 then 1 else if doy < 92 then 2
  else if doy < 122 then 3 else if doy < 153 then 4 else if doy < 184 then 5
  else if doy < 214 then 6 else if doy < 245 then 7 else if doy < 275 then 8
  else if doy < 306 then 9 else if doy < 337 then 10 else 11

def doeOf (z : Nat) : Nat := z % 146097

def doyOf (doe : Nat) : Nat := doe - sy (yoeOf doe)

/-- Civil month (1–12) from March-based month. -/
def monthOf (mp : Nat) : Nat := if mp < 10 then mp + 3 else mp - 9

/-- Civil year of day number `z` (days since 0000-03-01). -/
def yearOfZ (z : Nat) : Nat :=
  if monthOf (mpOf (doyOf (doeOf z))) ≤ 2
    then z / 146097 * 400 + yoeOf (doeOf z) + 1
    else z / 146097 * 400 + yoeOf (doeOf z)

/-- Civil month of day number `z`. -/
def monthOfZ (z : Nat) : Nat := monthOf (mpOf (doyOf (doeOf z)))

/-- Civil day-of-month of day number `z`. -/
def dayOfZ (z : Nat) : Nat := doyOf (doeOf z) - cd (mpOf (doyOf (doeOf z))) + 1

/-- Day number (days since 0000-03-01) of a civil date. -/
def daysFromCivil (y m d : Nat) : Nat :=
  (if m ≤ 2 then y - 1 else y) / 400 * 146097 +
    sy ((if m ≤ 2 then y - 1 else y) % 400) +
    cd (if 2 < m then m - 3 else m + 9) + (d - 1)

/-- Gregorian leap-year rule. -/
def isLeap (y : Nat) : Bool := (y % 4 == 0 && !(y % 100 == 0)) || y % 400 == 0

def daysInMonth (y m : Nat) : Nat :=
  if m = 2 then (if isLeap y then 29 else 28)
  else if m = 4 ∨ m = 6 ∨ m = 9 ∨ m = 11 then 30 else 31

theorem yoe_spec (doe : Nat) (h : doe ≤ 146096) :
    yoeOf doe ≤ 399 ∧ sy (yoeOf doe) ≤ doe ∧ doe < sy (yoeOf doe + 1) := by
  unfold yoeOf
  rcases Nat.lt_or_ge doe (sy (doe / 365)) with h1 | h1
  · rw [if_pos h1]
    have hg1 : 1 ≤ doe / 365 := by unfold sy at h1; omega
    have e1 : doe / 365 - 1 + 1 = doe / 365 := by omega
    refine ⟨by omega, ?_, by rw [e1]; exact h1⟩
    unfold sy at h1 ⊢
    have h4 : (doe / 365 - 1) / 4 ≤ 99 := by omega
    omega
  · rw [if_neg (Nat.not_lt.2 h1)]
    have hg : doe / 365 ≤ 400 := by omega
    have hle : (doe / 365 + 1) / 100 ≤ (doe / 365 + 1) / 4 := by omega
    refine ⟨?_, h1, ?_⟩
    · unfold sy at h1; omega
    · unfold sy at h1 ⊢; omega

theorem mp_spec : ∀ doy < 366, mpOf doy ≤ 11 ∧ cd (mpOf doy) ≤ doy ∧
    (mpOf doy < 11 → doy < cd (mpOf doy + 1)) := by decide

theorem sy_succ_le (k : Nat) : sy (k + 1) ≤ sy k + 366 := by
  unfold sy; omega

theorem doy_le (z : Nat) : doyOf (doeOf z) ≤ 365 := by
  have hdoe : doeOf z ≤ 146096 := Nat.le_of_lt_succ (Nat.mod_lt _ (by norm_num))
  obtain ⟨hy, hs1, hs2⟩ := yoe_spec (doeOf z) hdoe
  have := sy_succ_le (yoeOf (doeOf z))
  unfold doyOf
  omega

theorem civil_roundtrip (z : Nat) :
    daysFromCivil (yearOfZ z) (monthOfZ z) (dayOfZ z) = z := by
  have hdoe : doeOf z ≤ 146096 := Nat.le_of_lt_succ (Nat.mod_lt _ (by norm_num))
  obtain ⟨hy399, hsy1, hsy2⟩ := yoe_spec (doeOf z) hdoe
  obtain ⟨hmp11, hcd1, hcd2⟩ := mp_spec (doyOf (doeOf z)) (by have := doy_le z; omega)
  have hz : z = z / 146097 * 146097 + doeOf z := by unfold doeOf; omega
  have hdoyd : doyOf (doeOf z) = doeOf z - sy (yoeOf (doeOf z)) := rfl
  unfold yearOfZ monthOfZ dayOfZ daysFromCivil monthOf
  rcases Nat.lt_or_ge (mpOf (doyOf (doeOf z))) 10 with hlt | hge
  · simp only [if_pos hlt, if_neg (show ¬(mpOf (doyOf (doeOf z)) + 3 ≤ 2) by omega),
      if_pos (show 2 < mpOf (doyOf (doeOf z)) + 3 by omega),
      show mpOf (doyOf (doeOf z)) + 3 - 3 = mpOf (doyOf (doeOf z)) from by omega]
    have hmod : (z / 146097 * 400 + yoeOf (doeOf z)) % 400 = yoeOf (doeOf z) := by omega
    have hdiv : (z / 146097 * 400 + yoeOf (doeOf z)) / 400 = z / 146097 := by omega
    rw [hmod, hdiv]
    omega
  · simp only [if_neg (Nat.not_lt.2 hge),
      if_pos (show mpOf (doyOf (doeOf z)) - 9 ≤ 2 by omega),
      if_neg (show ¬(2 < mpOf (doyOf (doeOf z)) - 9) by omega),
      show mpOf (doyOf (doeOf z)) - 9 + 9 = mpOf (doyOf (doeOf z)) from by omega,
      show z / 146097 * 400 + yoeOf (doeOf z) + 1 - 1 = z / 146097 * 400 + yoeOf (doeOf z)
        from by omega]
    have hmod : (z / 146097 * 400 + yoeOf (doeOf z)) % 400 = yoeOf (doeOf z) := by omega
    have hdiv : (z / 146097 * 400 + yoeOf (doeOf z)) / 400 = z / 146097 := by omega
    rw [hmod, hdiv]
    omega

/-- The civil date produced by `yearOfZ`/`monthOfZ`/`dayOfZ` is a valid
calendar date. -/
theorem civil_valid (z : Nat) :
    1 ≤ monthOfZ z ∧ monthOfZ z ≤ 12 ∧ 1 ≤ dayOfZ z ∧
      dayOfZ z ≤ daysInMonth (yearOfZ z) (monthOfZ z) := by
  have hdoe : doeOf z ≤ 146096 := Nat.le_of_lt_succ (Nat.mod_lt _ (by norm_num))
  obtain ⟨hy399, hsy1, hsy2⟩ := yoe_spec (doeOf z) hdoe
  obtain ⟨hmp11, hcd1, hcd2⟩ := mp_spec (doyOf (doeOf z)) (by have := doy_le z; omega)
  have hdoy365 := doy_le z
  have hdoyd : doyOf (doeOf z) = doeOf z - sy (yoeOf (doeOf z)) := rfl
  unfold yearOfZ monthOfZ dayOfZ monthOf
  obtain ⟨mp, hmp⟩ : ∃ mp, mpOf (doyOf (doeOf z)) = mp := ⟨_, rfl⟩
  rw [hmp] at hmp11 hcd1 hcd2 ⊢
  rcases Nat.lt_or_ge mp 11 with hlt | hge
  · -- March … January: fixed month lengths
    have hlen := hcd2 hlt
    interval_cases mp <;>
      simp_all [cd, daysInMonth, isLeap] <;> omega
  · -- February (mp = 11)
    have hmp11' : mp = 11 := by omega
    subst hmp11'
    have hc11 : cd 11 = 337 := rfl
    simp only [show ¬((11 : Nat) < 10) from by omega, if_false, if_neg]
    have hm2 : (11 : Nat) - 9 = 2 := rfl
    rw [hm2]
    simp only [show ((2 : Nat) ≤ 2) = True from by simp, if_true, if_pos rfl]
    refine ⟨by omega, by omega, by omega, ?_⟩
    -- day ≤ 28, or 29 in a leap year
    rcases Nat.lt_or_ge (doyOf (doeOf z)) 365 with hd364 | hd365
    · -- doy ≤ 364 : day ≤ 28 regardless of leapness
      unfold daysInMonth
      rcases isLeap (z / 146097 * 400 + yoeOf (doeOf z) + 1) <;> simp <;> omega
    · -- doy = 365 : the era-year is long, so the civil year is leap
      have hdoyeq : doyOf (doeOf z) = 365 := by omega
      have hlong : sy (yoeOf (doeOf z)) + 366 ≤ sy (yoeOf (doeOf z) + 1) := by omega
      have hleap : isLeap (z / 146097 * 400 + yoeOf (doeOf z) + 1) = true := by
        unfold sy at hlong
        unfold isLeap
        simp only [Bool.or_eq_true, Bool.and_eq_true, beq_iff_eq, Bool.not_eq_true',
          beq_eq_false_iff_ne, ne_eq]
        omega
      unfold daysInMonth
      rw [hleap]
      simp
      omega

/-! ## ISO-8601 strings -/

def digitChar (n : Nat) : Char :=
  if n = 0 then '0' else if n = 1 then '1' else if n = 2 then '2'
  else if n = 3 then '3' else if n = 4 then '4' else if n = 5 then '5'
  else if n = 6 then '6' else if n = 7 then '7' else if n = 8 then '8' else '9'

def charDigit (c : Char) : Option Nat :=
  if c = '0' then some 0 else if c = '1' then some 1 else if c = '2' then some 2
  else if c = '3' then some 3 else if c = '4' then some 4 else if c = '5' then some 5
  else if c = '6' then some 6 else if c = '7' then some 7 else if c = '8' then some 8
  else if c = '9' then some 9 else none

theorem charDigit_digitChar : ∀ n < 10, charDigit (digitChar n) = some n := by decide

def read2 (a b : Char) : Option Nat :=
  match charDigit a, charDigit b with
  | some x, some y => some (10 * x + y)
  | _, _ => none

def read3 (a b c : Char) : Option Nat :=
  match charDigit a, charDigit b, charDigit c with
  | some x, some y, some z => some (100 * x + 10 * y + z)
  | _, _, _ => none

def read4 (a b c d : Char) : Option Nat :=
  match charDigit a, charDigit b, charDigit c, charDigit d with
  | some w, some x, some y, some z => some (1000 * w + 100 * x + 10 * y + z)
  | _, _, _, _ => none

def pad2 (n : Nat) : List Char := [digitChar (n / 10 % 10), digitChar (n % 10)]

def pad3 (n : Nat) : List Char :=
  [digitChar (n / 100 % 10), digitChar (n / 10 % 10), digitChar (n % 10)]

def pad4 (n : Nat) : List Char :=
  [digitChar (n / 1000 % 10), digitChar (n / 100 % 10), digitChar (n / 10 % 10),
   digitChar (n % 10)]

theorem read2_pad2 (n : Nat) (h : n ≤ 99) :
    read2 (digitChar (n / 10 % 10)) (digitChar (n % 10)) = some n := by
  unfold read2
  rw [charDigit_digitChar _ (by omega), charDigit_digitChar _ (by omega)]
  exact congrArg some (by omega)

theorem read3_pad3 (n : Nat) (h : n ≤ 999) :
    read3 (digitChar (n / 100 % 10)) (digitChar (n / 10 % 10)) (digitChar (n % 10)) =
      some n := by
  unfold read3
  rw [charDigit_digitChar _ (by omega), charDigit_digitChar _ (by omega),
    charDigit_digitChar _ (by omega)]
  exact congrArg some (by omega)

theorem read4_pad4 (n : Nat) (h : n ≤ 9999) :
    read4 (digitChar (n / 1000 % 10)) (digitChar (n / 100 % 10))
      (digitChar (n / 10 % 10)) (digitChar (n % 10)) = some n := by
  unfold read4
  rw [charDigit_digitChar _ (by omega), charDigit_digitChar _ (by omega),
    charDigit_digitChar _ (by omega), charDigit_digitChar _ (by omega)]
  exact congrArg some (by omega)

/-- Characters of `Date.prototype.toISOString` applied to the instant that is
`eN` milliseconds after 0000-03-01T00:00:00Z. -/
def toISOCore (eN : Nat) : List Char :=
  pad4 (yearOfZ (eN / 86400000)) ++ '-' :: pad2 (monthOfZ (eN / 86400000)) ++
  '-' :: pad2 (dayOfZ (eN / 86400000)) ++
  'T' :: pad2 (eN % 86400000 / 3600000) ++
  ':' :: pad2 (eN % 86400000 / 60000 % 60) ++
  ':' :: pad2 (eN % 86400000 / 1000 % 60) ++
  '.' :: pad3 (eN % 1000) ++ ['Z']

/-- Model of `Date.prototype.toISOString` (called on `new Date(ms)`), for
instants whose UTC year lies in 0001–9999 — the only years rendered in the
plain `YYYY-MM-DDTHH:MM:SS.sssZ` shape (and the only ones the relay
produces from validated input); outside that range the model yields `none`
(JavaScript would throw or use the expanded `±YYYYYY` form). -/
def toISOString (t : Int) : Option String :=
  if t + 719468 * 86400000 < 0 then none
  else
    if 1 ≤ yearOfZ ((t + 719468 * 86400000).toNat / 86400000) ∧
        yearOfZ ((t + 719468 * 86400000).toNat / 86400000) ≤ 9999 then
      some (String.mk (toISOCore (t + 719468 * 86400000).toNat))
    else none

/-- Model of `new Date(s).getTime()` for the canonical ISO-8601 UTC shape
`YYYY-MM-DDTHH:MM:SS.sssZ` (exactly what `toISOString` emits and the relay
stores); `none` plays the role of `NaN` (invalid date).  JavaScript also
accepts other ISO forms, so this reader is partial on strings the relay
never generates itself; where it succeeds it agrees with JavaScript. -/
def parseISOCore : List Char → Option Int
  | [y1, y2, y3, y4, a, o1, o2, b, d1, d2, c, h1, h2, e, i1, i2, f, s1, s2, g,
     m1, m2, m3, w] =>
    if a = '-' ∧ b = '-' ∧ c = 'T' ∧ e = ':' ∧ f = ':' ∧ g = '.' ∧ w = 'Z' then
      match read4 y1 y2 y3 y4, read2 o1 o2, read2 d1 d2, read2 h1 h2,
          read2 i1 i2, read2 s1 s2, read3 m1 m2 m3 with
      | some y, some mo, some dy, some hh, some mi, some ss, some ms =>
        if 1 ≤ y ∧ 1 ≤ mo ∧ mo ≤ 12 ∧ 1 ≤ dy ∧ dy ≤ daysInMonth y mo ∧
            hh ≤ 23 ∧ mi ≤ 59 ∧ ss ≤ 59 then
          some ((daysFromCivil y mo dy : Int) * 86400000 - 719468 * 86400000 +
            (hh * 3600000 + mi * 60000 + ss * 1000 + ms : Nat))
        else none
      | _, _, _, _, _, _, _ => none
    else none
  | _ => none

def parseISO (s : String) : Option Int := parseISOCore s.data

/-- Reading back a rendered timestamp recovers the instant. -/
theorem parseISO_toISOString (t : Int) (s : String) (h : toISOString t = some s) :
    parseISO s = some t := by
  unfold toISOString at h
  split at h
  · exact absurd h (by simp)
  · rename_i hpos
    split at h
    · rename_i hy
      obtain ⟨hy1, hy2⟩ := hy
      have hs : s = String.mk (toISOCore (t + 719468 * 86400000).toNat) :=
        (Option.some.inj h).symm
      subst hs
      unfold parseISO
      show parseISOCore (toISOCore (t + 719468 * 86400000).toNat) = some t
      obtain ⟨eN, heN⟩ : ∃ eN : Nat, (t + 719468 * 86400000).toNat = eN := ⟨_, rfl⟩
      rw [heN] at hy1 hy2 ⊢
      have heNval : (eN : Int) = t + 719468 * 86400000 := by
        rw [← heN]; exact Int.toNat_of_nonneg (by omega)
      obtain ⟨hmo1, hmo12, hdy1, hdyM⟩ := civil_valid (eN / 86400000)
      have hdim : daysInMonth (yearOfZ (eN / 86400000)) (monthOfZ (eN / 86400000)) ≤ 31 := by
        unfold daysInMonth; split_ifs <;> omega
      have hrt := civil_roundtrip (eN / 86400000)
      simp only [toISOCore, pad4, pad3, pad2, List.cons_append, List.nil_append]
      rw [parseISOCore]
      rw [if_pos ⟨rfl, rfl, rfl, rfl, rfl, rfl, rfl⟩]
      rw [read4_pad4 _ (by omega), read2_pad2 _ (by omega), read2_pad2 _ (by omega),
        read2_pad2 _ (by omega), read2_pad2 _ (by omega), read2_pad2 _ (by omega),
        read3_pad3 _ (by omega)]
      simp only []
      rw [if_pos ⟨hy1, hmo1, hmo12, hdy1, hdyM, by omega, by omega, by omega⟩]
      refine congrArg some ?_
      push_cast
      rw [hrt]
      omega
    · exact absurd h (by simp)

/-! ## Data model (`src/server.js`)

The `warnings` table, payload objects, transports, messages and the
in-memory runtime state (pending `setTimeout` timers, connected clients).
`emitted` is a history variable recording every `broadcast(kind, obj)`
invocation, in order.
-/

/-- JSON values (the polygon payload).  The `polygon TEXT` column stores
`JSON.stringify` of such a value and is read back with `JSON.parse`; the
model keeps the structured value (the pair is the identity here). -/
inductive Json where
  | null
  | bool (b : Bool)
  | num (q : ℚ)
  | str (s : String)
  | arr (elems : List Json)

/-- An inbound `issue` payload; `none` models a missing (`null`/`undefined`)
field, as tested by `p[k] == null`.  Numeric fields are exact rationals. -/
structure Payload where
  id : Option String
  type : Option String
  polygon : Option Json
  issuedISO : Option String
  minutes : Option ℚ
  wind : Option String := none
  hail : Option String := none
  threat : Option String := none
  author : Option String := none
  info : Option String := none
  possibleTag : Option String := none

/-- A row of the `warnings` table.  `created_at TEXT DEFAULT (datetime('now'))`
renders the commit instant at one-second granularity; the model keeps that
instant as its floor-second count (the rendering is injective in range and
never inspected by the relay). -/
structure Row where
  id : String
  type : String
  polygon : Json
  issuedISO : String
  minutes : ℚ
  expiresISO : String
  wind : Option String
  hail : Option String
  threat : Option String
  author : Option String
  info : Option String
  possibleTag : Option String
  active : Bool
  created_at : Int

/-- A pending `setTimeout` expiry callback for warning `id`, due at `fireAt`
(ms since epoch). -/
structure Timer where
  id : String
  fireAt : Int
deriving DecidableEq, Repr

inductive Transport where
  | io
  | ws
deriving DecidableEq, Repr

/-- A message as seen by one subscriber (or, for `emitted`, one `broadcast`
invocation): the bootstrap snapshot, an `issue` event (`{...payload,
expiresISO}`), or an `expire` event (`{ id }`). -/
inductive Msg where
  | bootstrap (rows : List Row)
  | issueEv (p : Payload) (expiresISO : String)
  | expireEv (id : String)

/-- A connected subscriber.  `readyState = 1` is a WebSocket in the OPEN
state (`broadcast` only sends to those); Socket.IO sockets deliver to every
connection in the namespace. -/
structure Client where
  cid : Nat
  transport : Transport
  readyState : Nat
  log : List Msg

/-- The whole observable server state: the durable `warnings` table, the
pending timers, the connected clients, a fresh-id counter, and the
`broadcast` history. -/
structure SysState where
  store : List Row
  timers : List Timer
  clients : List Client
  nextCid : Nat
  emitted : List Msg

/-! ## Warning Store (prepared statements, lines 50–61) -/

/-- `datetime(s)` at one-second granularity: SQLite's `datetime()` renders
`YYYY-MM-DD HH:MM:SS` (fractional seconds dropped), and comparison of those
strings is comparison of floor-second instants; `none` is SQL `NULL`
(unparseable input). -/
def sqliteSecs (s : String) : Option Int := (parseISO s).map (fun t => t / 1000)

/-- Row predicate of `getActive`:
`active = 1 AND datetime(expiresISO) > datetime('now')`. -/
def rowActiveAt (now : Int) (r : Row) : Bool :=
  r.active &&
    match sqliteSecs r.expiresISO with
    | some e => decide (now / 1000 < e)
    | none => false

/-- `getActive.all()` (line 55). -/
def getActive (store : List Row) (now : Int) : List Row :=
  store.filter (rowActiveAt now)

/-- `expireById.run(id)` (line 56): `UPDATE warnings SET active = 0 WHERE id = ?`
— a no-op (not an error) when no row matches. -/
def expireById (store : List Row) (id : String) : List Row :=
  store.map (fun r => if r.id = id then { r with active := false } else r)

/-- `insertWarning.run(row)` (lines 50–54): `INSERT OR REPLACE` deletes any
row with the same id and inserts the new row (at a fresh rowid, i.e. at the
end of the scan order); `created_at` is not in the column list, so its
`datetime('now')` default is evaluated at this insert. -/
def insertWarning (now : Int) (store : List Row) (r : Row) : List Row :=
  store.filter (fun r0 => ¬ r0.id = r.id) ++ [{ r with created_at := now / 1000 }]

/-- SQLite `substr(s, 1, n)` — the first `n` characters. -/
def takeChars (s : String) (n : Nat) : String := String.mk (s.data.take n)

/-- `getByDate.all(date)` (lines 57–61):
`WHERE substr(issuedISO,1,10) = ? ORDER BY issuedISO ASC` (any ascending
sort models `ORDER BY`; an insertion sort is used). -/
def getByDate (store : List Row) (date : String) : List Row :=
  (store.filter (fun r => takeChars r.issuedISO 10 = date)).insertionSort
    (fun a b => a.issuedISO ≤ b.issuedISO)

def findRow (store : List Row) (id : String) : Option Row :=
  store.find? (fun r => r.id == id)

/-! ## Transport fan-out (lines 84–124) -/

/-- Whether `broadcast` reaches this client: `io.emit` reaches every
Socket.IO connection; the native-WS loop sends only when
`client.readyState === 1`. -/
def receivesBroadcast (c : Client) : Bool :=
  match c.transport with
  | .io => true
  | .ws => c.readyState == 1

def deliver (m : Msg) (c : Client) : Client :=
  if receivesBroadcast c then { c with log := c.log ++ [m] } else c

/-- `broadcast(kind, obj)` (lines 114–124), also recorded in the emission
history. -/
def broadcastMsg (m : Msg) (s : SysState) : SysState :=
  { s with clients := s.clients.map (deliver m), emitted := s.emitted ++ [m] }

/-! ## Expiry scheduler (lines 126–137) -/

/-- Node's `setTimeout` delay coercion: a delay outside `[1, 2147483647]`
(including `NaN`) is replaced by `1`. -/
def nodeDelay (ms : Int) : Int :=
  if 1 ≤ ms ∧ ms ≤ 2147483647 then ms else 1

/-- `scheduleExpiry(id, expiresISO)`: `ms = new Date(expiresISO).getTime() -
Date.now()`; `if (ms <= 0) return;` else `setTimeout(cb, ms)`.  An
unparseable `expiresISO` gives `ms = NaN`, for which `NaN <= 0` is false,
so a timer is still installed and Node clamps the delay to 1 ms.  No
existing timer is consulted, replaced or cancelled. -/
def scheduleExpiry (now : Int) (id expiresISO : String) (ts : List Timer) : List Timer :=
  match parseISO expiresISO with
  | none => ts ++ [{ id := id, fireAt := now + 1 }]
  | some e => if e - now ≤ 0 then ts else ts ++ [{ id := id, fireAt := now + nodeDelay (e - now) }]

/-! ## Lifecycle controller (lines 139–184) -/

/-- `validateIssue(p)` (lines 139–146).  The polygon check is only
`Array.isArray`; the `issuedISO` check is only the prefix regular
expression `^\d{4}-\d{2}-\d{2}T`; the minutes check is
`Number.isFinite(m) && 1 <= m && m <= 1440` (every modelled rational is
finite, so only the range remains). -/
def isoShapeOK (s : String) : Bool :=
  match s.data with
  | c1 :: c2 :: c3 :: c4 :: a :: c5 :: c6 :: b :: c7 :: c8 :: c :: _ =>
      c1.isDigit && c2.isDigit && c3.isDigit && c4.isDigit && a == '-' &&
      c5.isDigit && c6.isDigit && b == '-' && c7.isDigit && c8.isDigit && c == 'T'
  | _ => false

def validateIssue (p : Payload) : Except String Unit :=
  if p.id.isNone then .error "Missing id"
  else if p.type.isNone then .error "Missing type"
  else if p.polygon.isNone then .error "Missing polygon"
  else if p.issuedISO.isNone then .error "Missing issuedISO"
  else if p.minutes.isNone then .error "Missing minutes"
  else
    match p.polygon with
    | some (Json.arr _) =>
        if ¬ isoShapeOK (p.issuedISO.getD "") then .error "issuedISO must be ISO string"
        else if ¬ (1 ≤ p.minutes.getD 0 ∧ p.minutes.getD 0 ≤ 1440) then
          .error "minutes out of range"
        else .ok ()
    | _ => .error "polygon must be an array of rings/points"

/-- JavaScript's number-to-Date truncation (`ToIntegerOrInfinity`). -/
def ratTrunc (q : ℚ) : Int := if q < 0 then ⌈q⌉ else ⌊q⌋

/-- `new Date(new Date(issuedISO).getTime() + minutes * 60000).toISOString()`
(line 151); `none` models the `RangeError` thrown on an invalid date. -/
def computeExpiresISO (issuedISO : String) (minutes : ℚ) : Option String :=
  match parseISO issuedISO with
  | none => none
  | some tms => toISOString (ratTrunc ((tms : ℚ) + minutes * 60000))

/-- The row object built in `handleIssue` (lines 152–166); `created_at` is
not among its fields (the column default applies at insert time — the model
sets the final value inside `insertWarning`). -/
def mkRow (p : Payload) (expiresISO : String) : Row :=
  { id := p.id.getD "", type := p.type.getD "",
    polygon := p.polygon.getD Json.null,
    issuedISO := p.issuedISO.getD "", minutes := p.minutes.getD 0,
    expiresISO := expiresISO,
    wind := p.wind, hail := p.hail, threat := p.threat,
    author := p.author, info := p.info, possibleTag := p.possibleTag,
    active := true, created_at := 0 }

/-- `handleIssue(payload, src)` (lines 148–174).  `ioFail` injects a
storage-layer failure at the `insertWarning.run` step; every failure path
lands in the surrounding `catch`, which only logs, leaving the state
untouched. -/
def handleIssue (ioFail : Bool) (now : Int) (p : Payload) (s : SysState) : SysState :=
  match validateIssue p with
  | .error _ => s
  | .ok _ =>
    match computeExpiresISO (p.issuedISO.getD "") (p.minutes.getD 0) with
    | none => s
    | some expiresISO =>
      if ioFail then s
      else
        broadcastMsg (Msg.issueEv p expiresISO)
          { s with
            store := insertWarning now s.store (mkRow p expiresISO),
            timers := scheduleExpiry now ((mkRow p expiresISO).id)
              ((mkRow p expiresISO).expiresISO) s.timers }

/-- `handleExpire(id, src)` (lines 176–184). -/
def handleExpire (id : String) (s : SysState) : SysState :=
  broadcastMsg (Msg.expireEv id) { s with store := expireById s.store id }

/-! ## Event-step semantics -/

/-- One externally triggered transition: a new subscriber connection (with
its bootstrap snapshot, lines 85–100), a disconnect (line 110), an inbound
issue or expire command from either transport (lines 90–91, 106–107), or a
pending timer firing (lines 129–136; a fire is enabled only once `now` has
reached the timer's due instant, and consumes the timer). -/
inductive Event where
  | connect (tr : Transport) (now : Int)
  | disconnect (cid : Nat)
  | issueCmd (p : Payload) (ioFail : Bool) (now : Int)
  | expireCmd (id : String)
  | fire (i : Nat) (now : Int)

def step (s : SysState) (e : Event) : SysState :=
  match e with
  | .connect tr now =>
      { s with
        clients := s.clients ++
          [{ cid := s.nextCid, transport := tr, readyState := 1,
             log := [Msg.bootstrap (getActive s.store now)] }],
        nextCid := s.nextCid + 1 }
  | .disconnect cid => { s with clients := s.clients.filter (fun c => ¬ c.cid = cid) }
  | .issueCmd p ioFail now => handleIssue ioFail now p s
  | .expireCmd id => handleExpire id s
  | .fire i now =>
      match s.timers[i]? with
      | some t =>
          if t.fireAt ≤ now then
            broadcastMsg (Msg.expireEv t.id)
              { s with store := expireById s.store t.id, timers := s.timers.eraseIdx i }
          else s
      | none => s

def runTrace (evs : List Event) (s : SysState) : SysState := evs.foldl step s

/-- Process start on an existing database: line 187 re-arms a timer per
`getActive` row; no clients, empty history. -/
def bootState (store : List Row) (now : Int) : SysState :=
  { store := store,
    timers := (getActive store now).foldl (fun ts r => scheduleExpiry now r.id r.expiresISO ts) [],
    clients := [], nextCid := 0, emitted := [] }

def initState : SysState :=
  { store := [], timers := [], clients := [], nextCid := 0, emitted := [] }

/-! ## REST history endpoint (lines 64–69) -/

/-- The anchored shape test `/^\d{4}-\d{2}-\d{2}$/`. -/
def dateShapeOK (s : String) : Bool :=
  match s.data with
  | [c1, c2, c3, c4, a, c5, c6, b, c7, c8] =>
      c1.isDigit && c2.isDigit && c3.isDigit && c4.isDigit && a == '-' &&
      c5.isDigit && c6.isDigit && b == '-' && c7.isDigit && c8.isDigit
  | _ => false

/-- `String.prototype.trim` (ASCII whitespace, which is all the relay ever
sees in a date query). -/
def jsTrim (s : String) : String :=
  String.mk (((s.data.dropWhile Char.isWhitespace).reverse.dropWhile
    Char.isWhitespace).reverse)

/-- `GET /warnings` (lines 64–69): a 400 client error when the shape test
fails, otherwise the `getByDate` rows (with polygons parsed back to
structured form). -/
def warningsQuery (store : List Row) (dateQ : Option String) :
    Except String (List Row) :=
  if dateShapeOK (jsTrim (dateQ.getD "")) then
    Except.ok (getByDate store (jsTrim (dateQ.getD "")))
  else Except.error "Use ?date=YYYY-MM-DD"

/-! ## Observation helpers -/

def isExpireEvFor (id : String) : Msg → Bool
  | .expireEv i => i == id
  | _ => false

def isIssueEvFor (id : String) : Msg → Bool
  | .issueEv p _ => p.id == some id
  | _ => false

def isBootstrapMsg : Msg → Bool
  | .bootstrap _ => true
  | _ => false

/-- Number of `expire` broadcasts for `id` in the emission history. -/
def expireEmits (id : String) (s : SysState) : Nat :=
  (s.emitted.filter (isExpireEvFor id)).length

/-- Number of `issue` broadcasts for `id` in the emission history (each one
marks the start of an activation episode). -/
def issueEmits (id : String) (s : SysState) : Nat :=
  (s.emitted.filter (isIssueEvFor id)).length

def timersFor (id : String) (s : SysState) : List Timer :=
  s.timers.filter (fun t => t.id == id)

def findClient (s : SysState) (cid : Nat) : Option Client :=
  s.clients.find? (fun c => c.cid == cid)

/-! ## Handler characterisations -/

/-- A fully successful `handleIssue` performs exactly: upsert, schedule,
broadcast. -/
theorem handleIssue_success (p : Payload) (now : Int) (s : SysState) (expISO : String)
    (hv : validateIssue p = .ok ())
    (hc : computeExpiresISO (p.issuedISO.getD "") (p.minutes.getD 0) = some expISO) :
    handleIssue false now p s =
      broadcastMsg (Msg.issueEv p expISO)
        { s with
          store := insertWarning now s.store (mkRow p expISO),
          timers := scheduleExpiry now ((mkRow p expISO).id)
            ((mkRow p expISO).expiresISO) s.timers } := by
  unfold handleIssue
  rw [hv, hc]
  rfl

/-- After an upsert the row is retrievable by id, with `created_at` set to
the insert instant. -/
theorem findRow_insertWarning (now : Int) (st : List Row) (r : Row) :
    findRow (insertWarning now st r) r.id = some { r with created_at := now / 1000 } := by
  unfold findRow insertWarning
  rw [List.find?_append]
  have h1 : (st.filter (fun r0 => ¬ r0.id = r.id)).find? (fun x => x.id == r.id) = none := by
    rw [List.find?_eq_none]
    intro x hx
    have hne := (List.mem_filter.1 hx).2
    simp only [decide_eq_true_eq] at hne
    simp [hne]
  rw [h1]
  simp [List.find?_cons_of_pos]

/-! ## Concrete fixtures -/

def polyW : Json :=
  Json.arr [Json.arr [Json.num 40, Json.num (-90)],
    Json.arr [Json.num (40.1 : ℚ), Json.num (-90)],
    Json.arr [Json.num (40.1 : ℚ), Json.num (-90.1 : ℚ)]]

/-- 2024-05-01T12:00:00Z. -/
def t0 : Int := 1714564800000

def pW1 : Payload :=
  { id := some "W1", type := some "TOR", polygon := some polyW,
    issuedISO := some "2024-05-01T12:00:00.000Z", minutes := some 1 }

def pW60 : Payload := { pW1 with minutes := some 60 }

def p500 : Payload :=
  { id := some "W3", type := some "TOR", polygon := some polyW,
    issuedISO := some "2024-05-01T12:00:00.500Z", minutes := some 30 }

def pEmptyPoly : Payload :=
  { id := some "W4", type := some "TOR", polygon := some (Json.arr []),
    issuedISO := some "2024-05-01T12:00:00.000Z", minutes := some 30 }

def pNoId : Payload :=
  { id := none, type := some "TOR", polygon := some polyW,
    issuedISO := some "2024-05-01T12:00:00.000Z", minutes := some 30 }

def rowJune : Row :=
  { id := "W6", type := "TOR", polygon := polyW,
    issuedISO := "2024-05-01T12:00:00.000Z", minutes := 44640,
    expiresISO := "2024-06-01T12:00:00.000Z", wind := none, hail := none,
    threat := none, author := none, info := none, possibleTag := none,
    active := true, created_at := 0 }

/-! ## C4 — issue validation -/

/-- The rejection condition C4 asserts, written from the spec's words: a
required field missing, polygon not a non-empty ordered sequence of rings,
`issuedAt` not parsing as an ISO-8601 timestamp, or `durationMinutes` not
an integer in [1, 1440].  (Spec-side definition, for comparison with the
code's `validateIssue`.) -/
def specIssueRejects (p : Payload) : Prop :=
  p.id = none ∨ p.type = none ∨ p.polygon = none ∨ p.issuedISO = none ∨
  p.minutes = none ∨
  (¬ ∃ rings : List Json, p.polygon = some (Json.arr rings) ∧ rings ≠ [] ∧
      ∀ rg ∈ rings, ∃ pts : List Json, rg = Json.arr pts) ∨
  (∀ t : Int, ¬ parseISO (p.issuedISO.getD "") = some t) ∨
  (¬ ∃ k : ℤ, (p.minutes.getD 0 : ℚ) = (k : ℚ) ∧ 1 ≤ k ∧ k ≤ 1440)

/-- C4 (counterexample): the claim's "if and only if" fails — a payload
whose polygon is the empty array must be rejected according to the claim
("a non-empty ordered sequence of rings"), yet `validateIssue` accepts it
(`Array.isArray` is the only polygon check). -/
theorem C4_counterexample :
    validateIssue pEmptyPoly = .ok () ∧ specIssueRejects pEmptyPoly := by
  refine ⟨rfl, ?_⟩
  unfold specIssueRejects
  refine Or.inr (Or.inr (Or.inr (Or.inr (Or.inr (Or.inl ?_)))))
  rintro ⟨rings, heq, hne, -⟩
  have : Json.arr [] = Json.arr rings := by
    have := Option.some.inj heq.symm
    simpa [pEmptyPoly] using this.symm
  cases this
  exact hne rfl

/-- C4 (amended): an issue command is rejected (with a logged validation
error and no store write, no timer, no broadcast) iff a required field
(`id`, `type`, `polygon`, `issuedISO`, `minutes`) is missing, or `polygon`
is not an array (emptiness and ring shape are not checked), or `issuedISO`
does not begin with the `\d{4}-\d{2}-\d{2}T` prefix (full ISO parsing is
not checked), or `Number(minutes)` is outside [1, 1440] (integrality is
not checked). -/
theorem C4_amended (p : Payload) :
    ((∃ msg, validateIssue p = .error msg) ↔
      p.id = none ∨ p.type = none ∨ p.polygon = none ∨ p.issuedISO = none ∨
      p.minutes = none ∨ (∀ xs : List Json, p.polygon ≠ some (Json.arr xs)) ∨
      isoShapeOK (p.issuedISO.getD "") = false ∨
      ¬ (1 ≤ p.minutes.getD 0 ∧ p.minutes.getD 0 ≤ 1440)) ∧
    (∀ msg ioFail now s, validateIssue p = .error msg → handleIssue ioFail now p s = s) := by
  constructor
  · by_cases h1 : p.id = none
    · exact iff_of_true ⟨"Missing id", by simp [validateIssue, h1]⟩ (Or.inl h1)
    · by_cases h2 : p.type = none
      · exact iff_of_true ⟨"Missing type", by simp [validateIssue, h1, h2]⟩
          (Or.inr (Or.inl h2))
      · by_cases h3 : p.polygon = none
        · exact iff_of_true ⟨"Missing polygon", by simp [validateIssue, h1, h2, h3]⟩
            (Or.inr (Or.inr (Or.inl h3)))
        · by_cases h4 : p.issuedISO = none
          · exact iff_of_true
              ⟨"Missing issuedISO", by simp [validateIssue, h1, h2, h3, h4]⟩
              (Or.inr (Or.inr (Or.inr (Or.inl h4))))
          · by_cases h5 : p.minutes = none
            · exact iff_of_true
                ⟨"Missing minutes", by simp [validateIssue, h1, h2, h3, h4, h5]⟩
                (Or.inr (Or.inr (Or.inr (Or.inr (Or.inl h5)))))
            · obtain ⟨v, hv⟩ := Option.ne_none_iff_exists'.1 h3
              cases v with
              | arr xs =>
                by_cases h6 : isoShapeOK (p.issuedISO.getD "") = false
                · refine iff_of_true ⟨"issuedISO must be ISO string", ?_⟩ (by tauto)
                  simp [validateIssue, h1, h2, h3, h4, h5, hv, h6]
                · by_cases h7 : 1 ≤ p.minutes.getD 0 ∧ p.minutes.getD 0 ≤ 1440
                  · refine iff_of_false ?_ ?_
                    · rintro ⟨msg, hmsg⟩
                      rw [show validateIssue p = .ok () from ?_] at hmsg
                      · cases hmsg
                      · simp [validateIssue, h1, h2, h3, h4, h5, hv,
                          eq_true_of_ne_false h6, h7]
                    · push_neg
                      refine ⟨h1, h2, h3, h4, h5, ⟨xs, hv⟩, ?_, h7⟩
                      simpa using h6
                  · refine iff_of_true ⟨"minutes out of range", ?_⟩ (by tauto)
                    simp [validateIssue, h1, h2, h3, h4, h5, hv,
                      eq_true_of_ne_false h6, h7]
              | null =>
                refine iff_of_true ⟨"polygon must be an array of rings/points",
                  by simp [validateIssue, h1, h2, h3, h4, h5, hv]⟩ ?_
                refine Or.inr (Or.inr (Or.inr (Or.inr (Or.inr (Or.inl ?_)))))
                intro xs hxs
                rw [hv] at hxs
                cases hxs
              | bool b =>
                refine iff_of_true ⟨"polygon must be an array of rings/points",
                  by simp [validateIssue, h1, h2, h3, h4, h5, hv]⟩ ?_
                refine Or.inr (Or.inr (Or.inr (Or.inr (Or.inr (Or.inl ?_)))))
                intro xs hxs
                rw [hv] at hxs
                cases hxs
              | num q =>
                refine iff_of_true ⟨"polygon must be an array of rings/points",
                  by simp [validateIssue, h1, h2, h3, h4, h5, hv]⟩ ?_
                refine Or.inr (Or.inr (Or.inr (Or.inr (Or.inr (Or.inl ?_)))))
                intro xs hxs
                rw [hv] at hxs
                cases hxs
              | str a =>
                refine iff_of_true ⟨"polygon must be an array of rings/points",
                  by simp [validateIssue, h1, h2, h3, h4, h5, hv]⟩ ?_
                refine Or.inr (Or.inr (Or.inr (Or.inr (Or.inr (Or.inl ?_)))))
                intro xs hxs
                rw [hv] at hxs
                cases hxs
  · intro msg ioFail now s h
    unfold handleIssue
    rw [h]

/-- C4 (witness): a payload with a missing `id` is rejected and leaves the
state untouched. -/
theorem C4_witness : handleIssue false 0 pNoId initState = initState :=
  (C4_amended pNoId).2 "Missing id" false 0 initState (by rfl)

/-! ## C5 — failures abort without partial effects -/

/-- C5: if validation fails, the expiry computation fails (invalid issued
date), or the store upsert fails, `handleIssue` returns the state
unchanged: no row written, no timer armed, no broadcast emitted, and the
error is only logged (the handler is total — nothing propagates). -/
theorem C5_issue_failure_no_effects (p : Payload) (ioFail : Bool) (now : Int) (s : SysState)
    (h : (∃ msg, validateIssue p = .error msg) ∨
      computeExpiresISO (p.issuedISO.getD "") (p.minutes.getD 0) = none ∨
      ioFail = true) :
    handleIssue ioFail now p s = s := by
  unfold handleIssue
  cases hval : validateIssue p with
  | error msg => rfl
  | ok u =>
    cases u
    rcases h with ⟨msg, hmsg⟩ | hc | hf
    · rw [hval] at hmsg; cases hmsg
    · rw [hc]
    · subst hf
      cases hcomp : computeExpiresISO (p.issuedISO.getD "") (p.minutes.getD 0) with
      | none => rfl
      | some e => rfl

/-- C5 (witness): a persistence failure on a valid command leaves the state
unchanged. -/
theorem C5_witness : handleIssue true t0 pW1 initState = initState :=
  C5_issue_failure_no_effects pW1 true t0 initState (Or.inr (Or.inr rfl))

/-! ## C8 — createdAt across re-issues -/

def sC8a : SysState := handleIssue false t0 pW1 initState

def sC8b : SysState := handleIssue false (t0 + 60000) pW1 sC8a

/-- C8 (counterexample): re-issuing `W1` one minute later rewrites
`created_at` (the `INSERT OR REPLACE` replaces the whole row and re-applies
the `datetime('now')` default), so `created_at` is not preserved across
re-issues. -/
theorem C8_counterexample :
    (findRow sC8a.store "W1").map Row.created_at = some 1714564800 ∧
    (findRow sC8b.store "W1").map Row.created_at = some 1714564860 ∧
    (1714564800 : Int) ≠ 1714564860 := ⟨by decide, by decide, by decide⟩

/-- C8 (amended): `created_at` equals the time of the *latest* upsert of the
id: every successful (re-)issue resets it to the current instant, because
`INSERT OR REPLACE` deletes the old row and the omitted column takes its
`datetime('now')` default again. -/
theorem C8_amended (s : SysState) (p : Payload) (now : Int) (expISO : String)
    (hv : validateIssue p = .ok ())
    (hc : computeExpiresISO (p.issuedISO.getD "") (p.minutes.getD 0) = some expISO) :
    (findRow (handleIssue false now p s).store (p.id.getD "")).map Row.created_at =
      some (now / 1000) := by
  rw [handleIssue_success p now s expISO hv hc]
  show (findRow (insertWarning now s.store (mkRow p expISO)) (p.id.getD "")).map
    Row.created_at = some (now / 1000)
  have hid : p.id.getD "" = (mkRow p expISO).id := rfl
  rw [hid, findRow_insertWarning]
  rfl

/-- C8 (witness): instantiating the amended claim on the second issue of the
concrete trace. -/
theorem C8_witness :
    (findRow (handleIssue false (t0 + 60000) pW1 sC8a).store
      (pW1.id.getD "")).map Row.created_at = some ((t0 + 60000) / 1000) :=
  C8_amended sC8a pW1 (t0 + 60000) "2024-05-01T12:01:00.000Z" (by rfl) (by decide)

/-! ## C9 — history query by issue date -/

/-- Modelled from the spec: a "well-formed calendar date" `YYYY-MM-DD`
(digit shape plus month 1–12 and day within the month's length). -/
def specWellFormedDate (s : String) : Bool :=
  match s.data with
  | [c1, c2, c3, c4, a, c5, c6, b, c7, c8] =>
      (a == '-') && (b == '-') &&
      (match read4 c1 c2 c3 c4, read2 c5 c6, read2 c7 c8 with
       | some y, some mo, some dy =>
           decide (1 ≤ mo ∧ mo ≤ 12 ∧ 1 ≤ dy ∧ dy ≤ daysInMonth y mo)
       | _, _, _ => false)
  | _ => false

/-- C9 (counterexample): `2024-13-99` is not a well-formed calendar date,
but the endpoint accepts it (the only check is the digit-shape regular
expression) and answers `200` with an empty result instead of a
`ValidationError`. -/
theorem C9_counterexample :
    warningsQuery [] (some "2024-13-99") = .ok [] ∧
    specWellFormedDate "2024-13-99" = false := ⟨by rfl, by rfl⟩

/-- C9 (amended): the query fails with a client error exactly when the
supplied date does not match the ten-character digit shape
`\d{4}-\d{2}-\d{2}` (calendar validity is not checked); on success it
returns exactly the rows whose `issuedISO` begins with that date, ordered
by `issuedISO` ascending (as strings). -/
theorem C9_amended (store : List Row) (dq : Option String) :
    ((∃ msg, warningsQuery store dq = .error msg) ↔
      dateShapeOK (jsTrim (dq.getD "")) = false) ∧
    ∀ rows, warningsQuery store dq = .ok rows →
      rows.Perm (store.filter (fun r => takeChars r.issuedISO 10 = jsTrim (dq.getD ""))) ∧
      rows.Pairwise (fun a b => a.issuedISO ≤ b.issuedISO) := by
  constructor
  · by_cases h : dateShapeOK (jsTrim (dq.getD "")) = true
    · refine iff_of_false ?_ (by simp [h])
      rintro ⟨msg, hmsg⟩
      unfold warningsQuery at hmsg
      rw [if_pos h] at hmsg
      cases hmsg
    · have hf : dateShapeOK (jsTrim (dq.getD "")) = false := by simpa using h
      refine iff_of_true ⟨"Use ?date=YYYY-MM-DD", ?_⟩ hf
      unfold warningsQuery
      rw [if_neg (by simp [hf])]
  · intro rows hrows
    unfold warningsQuery at hrows
    by_cases h : dateShapeOK (jsTrim (dq.getD "")) = true
    · rw [if_pos h] at hrows
      have hrw : rows = getByDate store (jsTrim (dq.getD "")) := (Except.ok.inj hrows).symm
      subst hrw
      constructor
      · exact List.perm_insertionSort _ _
      · haveI : IsTotal Row (fun a b => a.issuedISO ≤ b.issuedISO) :=
          ⟨fun a b => le_total _ _⟩
        haveI : IsTrans Row (fun a b => a.issuedISO ≤ b.issuedISO) :=
          ⟨fun _ _ _ hab hbc => le_trans hab hbc⟩
        exact List.sorted_insertionSort _ _
    · rw [if_neg h] at hrows
      cases hrows

/-- C9 (witness): the amended claim applied to a one-row store and the date
`2024-05-01`. -/
theorem C9_witness :
    (getByDate [rowJune] (jsTrim ((some "2024-05-01").getD ""))).Perm
        ([rowJune].filter (fun r => takeChars r.issuedISO 10 =
          jsTrim ((some "2024-05-01").getD ""))) ∧
    (getByDate [rowJune] (jsTrim ((some "2024-05-01").getD ""))).Pairwise
        (fun a b => a.issuedISO ≤ b.issuedISO) :=
  (C9_amended [rowJune] (some "2024-05-01")).2 _ rfl

/-! ## C10 — expiring an unknown id -/

def clientSockIo : Client := { cid := 0, transport := Transport.io, readyState := 1, log := [] }

def clientWS : Client := { cid := 1, transport := Transport.ws, readyState := 1, log := [] }

def sC10 : SysState :=
  { store := [rowJune], timers := [], clients := [clientSockIo, clientWS],
    nextCid := 2, emitted := [] }

/-- C10: an expire command for an id with no row leaves the store unchanged
(`UPDATE ... WHERE id = ?` matches nothing and raises nothing — the handler
is total), yet the `expire` broadcast carrying that id is still emitted and
delivered to every connected subscriber on both transports (for native WS,
those in the OPEN state — the only ones `broadcast` sends to). -/
theorem C10_expire_unknown_id (s : SysState) (wid : String)
    (hnone : ∀ r ∈ s.store, r.id ≠ wid) :
    (step s (Event.expireCmd wid)).store = s.store ∧
    (step s (Event.expireCmd wid)).emitted = s.emitted ++ [Msg.expireEv wid] ∧
    ∀ c ∈ s.clients, (c.transport = Transport.io ∨ c.readyState = 1) →
      ∃ c', c' ∈ (step s (Event.expireCmd wid)).clients ∧ c'.cid = c.cid ∧
        c'.log = c.log ++ [Msg.expireEv wid] := by
  refine ⟨?_, rfl, ?_⟩
  · show expireById s.store wid = s.store
    unfold expireById
    calc s.store.map (fun r => if r.id = wid then { r with active := false } else r)
        = s.store.map id :=
          List.map_congr_left (fun r hr => by rw [if_neg (hnone r hr)]; rfl)
      _ = s.store := List.map_id _
  · intro c hc hrec
    have hro : receivesBroadcast c = true := by
      unfold receivesBroadcast
      rcases hrec with h | h
      · rw [h]
      · cases ht : c.transport
        · rfl
        · simp [h]
    refine ⟨deliver (Msg.expireEv wid) c, ?_, ?_, ?_⟩
    · show deliver (Msg.expireEv wid) c ∈ s.clients.map (deliver (Msg.expireEv wid))
      exact List.mem_map_of_mem _ hc
    · unfold deliver; split <;> rfl
    · unfold deliver
      rw [if_pos hro]

/-- C10 (witness): expiring the unknown id `GHOST` on a concrete state with
one Socket.IO and one open WS subscriber. -/
theorem C10_witness :
    (step sC10 (Event.expireCmd "GHOST")).store = sC10.store ∧
    (step sC10 (Event.expireCmd "GHOST")).emitted =
      sC10.emitted ++ [Msg.expireEv "GHOST"] ∧
    ∀ c ∈ sC10.clients, (c.transport = Transport.io ∨ c.readyState = 1) →
      ∃ c', c' ∈ (step sC10 (Event.expireCmd "GHOST")).clients ∧ c'.cid = c.cid ∧
        c'.log = c.log ++ [Msg.expireEv "GHOST"] :=
  C10_expire_unknown_id sC10 "GHOST" (by
    intro r hr
    simp only [sC10, List.mem_singleton] at hr
    subst hr
    decide)

/-! ## C2 — pending timers per id -/

def sC2 : SysState :=
  runTrace [Event.issueCmd pW60 false t0, Event.issueCmd pW60 false (t0 + 1000)] initState

/-- C2 (counterexample): re-issuing `W1` while its first timer is pending
leaves *two* pending timers for `W1` — `scheduleExpiry` installs a new
`setTimeout` without consulting, replacing or cancelling anything, so "at
most one pending timer per id" is false and the superseded timer will still
fire. -/
theorem C2_counterexample :
    (timersFor "W1" sC2).length = 2 ∧ ¬ ((timersFor "W1" sC2).length ≤ 1) ∧
    (timersFor "W1" sC2).map Timer.fireAt = [t0 + 3600000, t0 + 3600000] :=
  ⟨by decide, by decide, by decide⟩

/-- In-range future expiries arm a timer at exactly the parsed instant,
appended to the existing timers. -/
theorem scheduleExpiry_success (now e : Int) (tid iso : String) (ts : List Timer)
    (he : parseISO iso = some e) (hfut : 0 < e - now) (hclamp : e - now ≤ 2147483647) :
    scheduleExpiry now tid iso ts = ts ++ [{ id := tid, fireAt := e }] := by
  unfold scheduleExpiry
  rw [he]
  show (if e - now ≤ 0 then ts
    else ts ++ [{ id := tid, fireAt := now + nodeDelay (e - now) }]) = _
  rw [if_neg (by omega)]
  have hnd : nodeDelay (e - now) = e - now := by
    unfold nodeDelay
    rw [if_pos ⟨by omega, hclamp⟩]
  rw [hnd]
  simp only [show now + (e - now) = e from by omega]

/-- C2 (amended): arming an id never replaces or cancels anything: every
successful issue whose expiry is in the future (within Node's delay range)
*appends* one more pending timer for the id, keeping every previously
pending timer — including earlier timers for the same id — in place. -/
theorem C2_amended (s : SysState) (p : Payload) (now e : Int) (expISO : String)
    (hv : validateIssue p = .ok ())
    (hc : computeExpiresISO (p.issuedISO.getD "") (p.minutes.getD 0) = some expISO)
    (he : parseISO expISO = some e)
    (hfut : 0 < e - now) (hclamp : e - now ≤ 2147483647) :
    (handleIssue false now p s).timers =
      s.timers ++ [{ id := p.id.getD "", fireAt := e }] := by
  rw [handleIssue_success p now s expISO hv hc]
  show scheduleExpiry now ((mkRow p expISO).id) ((mkRow p expISO).expiresISO) s.timers =
    s.timers ++ [{ id := p.id.getD "", fireAt := e }]
  exact scheduleExpiry_success now e _ expISO s.timers he hfut hclamp

/-- C2 (witness): the first issue of the concrete trace appends the timer
for 13:00:00Z. -/
theorem C2_witness :
    (handleIssue false t0 pW60 initState).timers =
      initState.timers ++ [{ id := pW60.id.getD "", fireAt := t0 + 3600000 }] :=
  C2_amended initState pW60 t0 (t0 + 3600000) "2024-05-01T13:00:00.000Z"
    (by rfl) (by decide) (by decide) (by decide) (by decide)

/-! ## C1 — expire broadcasts per activation episode -/

def sC1 : SysState :=
  runTrace [Event.issueCmd pW1 false t0, Event.expireCmd "W1", Event.fire 0 (t0 + 60000)]
    initState

/-- C1 (counterexample): one activation episode of `W1` (a single issue,
deactivated by the explicit expire command), yet *two* `expire` broadcasts
are emitted — the pending one-minute timer of the already-ended episode
still fires and broadcasts again. -/
theorem C1_counterexample :
    issueEmits "W1" sC1 = 1 ∧ expireEmits "W1" sC1 = 2 ∧
    ¬ (expireEmits "W1" sC1 ≤ issueEmits "W1" sC1) :=
  ⟨by decide, by decide, by decide⟩

/-- How many `expire` broadcasts for `id` a single event can trigger: one
for an explicit expire command carrying `id`, one for any timer fire (a
stale timer can carry `id`), none otherwise. -/
def triggerWeight (id : String) : Event → Nat
  | Event.expireCmd i => if i == id then 1 else 0
  | Event.fire _ _ => 1
  | _ => 0

/-- Total expire-trigger budget of a trace for `id`. -/
def expireTriggers (id : String) (evs : List Event) : Nat :=
  (evs.map (triggerWeight id)).sum

theorem expireEmits_broadcastMsg (id : String) (m : Msg) (s : SysState) :
    expireEmits id (broadcastMsg m s) =
      expireEmits id s + (if isExpireEvFor id m then 1 else 0) := by
  unfold expireEmits broadcastMsg
  simp only [List.filter_append, List.length_append]
  congr 1
  rw [List.filter_cons]
  split <;> simp

theorem expireEmits_handleIssue (id : String) (f : Bool) (now : Int) (p : Payload)
    (s : SysState) : expireEmits id (handleIssue f now p s) = expireEmits id s := by
  unfold handleIssue
  cases hval : validateIssue p with
  | error msg => rfl
  | ok u =>
    cases u
    cases hcee : computeExpiresISO (p.issuedISO.getD "") (p.minutes.getD 0) with
    | none => rfl
    | some expISO =>
      cases f with
      | true => rfl
      | false =>
        show expireEmits id (broadcastMsg (Msg.issueEv p expISO)
          { s with store := insertWarning now s.store (mkRow p expISO),
                   timers := scheduleExpiry now ((mkRow p expISO).id)
                     ((mkRow p expISO).expiresISO) s.timers }) = _
        rw [expireEmits_broadcastMsg]
        rfl

theorem expireEmits_step (id : String) (s : SysState) (e : Event) :
    expireEmits id (step s e) ≤ expireEmits id s + triggerWeight id e := by
  cases e with
  | connect tr now => exact Nat.le_add_right _ _
  | disconnect cid => exact Nat.le_add_right _ _
  | issueCmd p f now =>
      show expireEmits id (handleIssue f now p s) ≤ _
      rw [expireEmits_handleIssue]
      exact Nat.le_add_right _ _
  | expireCmd i =>
      show expireEmits id (handleExpire i s) ≤
        expireEmits id s + (if i == id then 1 else 0)
      unfold handleExpire
      rw [expireEmits_broadcastMsg]
      have hsame : expireEmits id { s with store := expireById s.store i } =
        expireEmits id s := rfl
      rw [hsame]
      have hi : isExpireEvFor id (Msg.expireEv i) = (i == id) := rfl
      rw [hi]
  | fire i now =>
      show expireEmits id (match s.timers[i]? with
        | some t =>
            if t.fireAt ≤ now then
              broadcastMsg (Msg.expireEv t.id)
                { s with store := expireById s.store t.id, timers := s.timers.eraseIdx i }
            else s
        | none => s) ≤ expireEmits id s + 1
      cases ht : s.timers[i]? with
      | none => exact Nat.le_add_right _ _
      | some t =>
        show expireEmits id (if t.fireAt ≤ now then
            broadcastMsg (Msg.expireEv t.id)
              { s with store := expireById s.store t.id,
                       timers := s.timers.eraseIdx i }
          else s) ≤ _
        by_cases hle : t.fireAt ≤ now
        · rw [if_pos hle, expireEmits_broadcastMsg]
          have hsame : expireEmits id
            { s with store := expireById s.store t.id, timers := s.timers.eraseIdx i } =
              expireEmits id s := rfl
          rw [hsame]
          split <;> omega
        · rw [if_neg hle]
          exact Nat.le_add_right _ _

/-- C1 (amended): each `expire` broadcast for an id is produced by exactly
one trigger — an explicit expire command for that id or a timer firing —
so over any trace the number of `expire` broadcasts for an id is bounded by
the number of such triggers, *not* by the number of activation episodes:
timers of superseded or already-ended episodes are never cancelled, and
each still fires its own deactivation and `expire` broadcast. -/
theorem C1_amended (id : String) (evs : List Event) (s0 : SysState) :
    expireEmits id (runTrace evs s0) ≤ expireEmits id s0 + expireTriggers id evs := by
  induction evs generalizing s0 with
  | nil =>
      unfold runTrace expireTriggers
      simp
  | cons e rest ih =>
      have h1 := expireEmits_step id s0 e
      have h2 := ih (step s0 e)
      have h3 : expireTriggers id (e :: rest) =
          triggerWeight id e + expireTriggers id rest := by
        unfold expireTriggers
        simp
      show expireEmits id (runTrace rest (step s0 e)) ≤ _
      rw [h3]
      omega

/-! ## C6 — restart rescheduling -/

/-- `scheduleExpiry` keeps every already-pending timer. -/
theorem scheduleExpiry_mono (now : Int) (tid iso : String) (ts : List Timer) (x : Timer)
    (hx : x ∈ ts) : x ∈ scheduleExpiry now tid iso ts := by
  unfold scheduleExpiry
  cases hpi : parseISO iso with
  | none => exact List.mem_append_left _ hx
  | some e =>
      show x ∈ (if e - now ≤ 0 then ts
        else ts ++ [{ id := tid, fireAt := now + nodeDelay (e - now) }])
      split
      · exact hx
      · exact List.mem_append_left _ hx

theorem mem_foldl_sched (now : Int) (l : List Row) (ts : List Timer) (x : Timer)
    (hx : x ∈ ts) :
    x ∈ l.foldl (fun acc r => scheduleExpiry now r.id r.expiresISO acc) ts := by
  induction l generalizing ts with
  | nil => exact hx
  | cons a rest ih => exact ih _ (scheduleExpiry_mono now a.id a.expiresISO ts x hx)

theorem row_timer_mem_foldl (now e : Int) (l : List Row) (ts : List Timer) (r : Row)
    (hr : r ∈ l) (he : parseISO r.expiresISO = some e) (hfut : 0 < e - now)
    (hclamp : e - now ≤ 2147483647) :
    ({ id := r.id, fireAt := e } : Timer) ∈
      l.foldl (fun acc r => scheduleExpiry now r.id r.expiresISO acc) ts := by
  induction l generalizing ts with
  | nil => cases hr
  | cons a rest ih =>
      rw [List.foldl_cons]
      rcases List.mem_cons.1 hr with heq | hmem
      · subst heq
        apply mem_foldl_sched
        rw [scheduleExpiry_success now e r.id r.expiresISO ts he hfut hclamp]
        exact List.mem_append_right _ (List.mem_singleton.2 rfl)
      · exact ih (scheduleExpiry now a.id a.expiresISO ts) hmem

def rowSoon : Row := { rowJune with minutes := 60, expiresISO := "2024-05-01T13:00:00.000Z" }

/-- C6 (counterexample): a restart one month before a still-active row's
`expiresAt` does *not* arm its timer at the original instant: the remaining
delay (31 days ≈ 2.68e9 ms) exceeds Node's 2³¹−1 ms `setTimeout` maximum,
so the delay is clamped to 1 ms and the one armed timer is due at `now+1` —
the warning is deactivated immediately after restart instead of at its
`expiresAt`. -/
theorem C6_counterexample :
    rowActiveAt t0 rowJune = true ∧
    parseISO rowJune.expiresISO = some 1717243200000 ∧
    2147483647 < 1717243200000 - t0 ∧
    (bootState [rowJune] t0).timers.map Timer.fireAt = [t0 + 1] ∧
    t0 + 1 ≠ 1717243200000 :=
  ⟨by decide, by decide, by decide, by decide, by decide⟩

/-- C6 (amended): for every stored row that is still active with a
not-yet-passed `expiresAt` *at most 2³¹−1 ms away*, startup reconciliation
arms a timer at exactly the original `expiresAt`, and firing that timer at
that instant marks the row inactive and emits one `expire` broadcast — the
warning still dies at its original instant, neither immediately nor never.
(Rows further out get a 1 ms timer instead — see the counterexample.) -/
theorem C6_amended (store : List Row) (now e : Int) (r : Row)
    (hmem : r ∈ store) (hact : rowActiveAt now r = true)
    (hp : parseISO r.expiresISO = some e)
    (hclamp : e - now ≤ 2147483647) :
    ({ id := r.id, fireAt := e } : Timer) ∈ (bootState store now).timers ∧
    ∀ i, (bootState store now).timers[i]? = some { id := r.id, fireAt := e } →
      (∀ r' ∈ (step (bootState store now) (Event.fire i e)).store,
          r'.id = r.id → r'.active = false) ∧
      (step (bootState store now) (Event.fire i e)).emitted = [Msg.expireEv r.id] := by
  have hfut : 0 < e - now := by
    unfold rowActiveAt at hact
    rw [show sqliteSecs r.expiresISO = some (e / 1000) from by
      unfold sqliteSecs; rw [hp]; rfl] at hact
    rw [Bool.and_eq_true] at hact
    obtain ⟨-, hlt⟩ := hact
    have := of_decide_eq_true hlt
    omega
  constructor
  · show ({ id := r.id, fireAt := e } : Timer) ∈
      (getActive store now).foldl (fun acc r => scheduleExpiry now r.id r.expiresISO acc) []
    exact row_timer_mem_foldl now e (getActive store now) [] r
      (List.mem_filter.2 ⟨hmem, hact⟩) hp hfut hclamp
  · intro i hi
    show (∀ r' ∈ (match (bootState store now).timers[i]? with
        | some tm =>
            if tm.fireAt ≤ e then
              broadcastMsg (Msg.expireEv tm.id)
                { bootState store now with
                  store := expireById (bootState store now).store tm.id,
                  timers := (bootState store now).timers.eraseIdx i }
            else bootState store now
        | none => bootState store now).store,
        r'.id = r.id → r'.active = false) ∧
      (match (bootState store now).timers[i]? with
        | some tm =>
            if tm.fireAt ≤ e then
              broadcastMsg (Msg.expireEv tm.id)
                { bootState store now with
                  store := expireById (bootState store now).store tm.id,
                  timers := (bootState store now).timers.eraseIdx i }
            else bootState store now
        | none => bootState store now).emitted = [Msg.expireEv r.id]
    rw [hi]
    show (∀ r' ∈ (if e ≤ e then
          broadcastMsg (Msg.expireEv r.id)
            { bootState store now with
              store := expireById (bootState store now).store r.id,
              timers := (bootState store now).timers.eraseIdx i }
        else bootState store now).store, r'.id = r.id → r'.active = false) ∧
      (if e ≤ e then
          broadcastMsg (Msg.expireEv r.id)
            { bootState store now with
              store := expireById (bootState store now).store r.id,
              timers := (bootState store now).timers.eraseIdx i }
        else bootState store now).emitted = [Msg.expireEv r.id]
    rw [if_pos (le_refl e)]
    constructor
    · intro r' hr' hid
      show r'.active = false
      rcases List.mem_map.1 hr' with ⟨r0, hr0, hr0eq⟩
      by_cases h0 : r0.id = r.id
      · rw [← hr0eq]
        simp [h0]
      · exfalso
        rw [← hr0eq] at hid
        simp only [if_neg h0] at hid
        exact h0 hid
    · rfl

/-- C6 (witness): a row expiring one hour after the restart instant is
re-armed at exactly its original `expiresAt`. -/
theorem C6_witness :
    ({ id := rowSoon.id, fireAt := 1714568400000 } : Timer) ∈
      (bootState [rowSoon] t0).timers ∧
    ∀ i, (bootState [rowSoon] t0).timers[i]? =
        some { id := rowSoon.id, fireAt := 1714568400000 } →
      (∀ r' ∈ (step (bootState [rowSoon] t0) (Event.fire i 1714568400000)).store,
          r'.id = rowSoon.id → r'.active = false) ∧
      (step (bootState [rowSoon] t0) (Event.fire i 1714568400000)).emitted =
        [Msg.expireEv rowSoon.id] :=
  C6_amended [rowSoon] t0 1714568400000 rowSoon (List.mem_singleton.2 rfl)
    (by decide) (by decide) (by decide)

/-! ## C3 — expiresAt arithmetic and immediate retrievability -/

def sC3 : SysState := handleIssue false t0 p500 initState

/-- C3 (counterexample): issuing at `12:00:00.500Z` for 30 minutes stores
`expiresAt = 12:30:00.500Z` (the arithmetic is exact), but the
active-warnings query at `12:30:00.200Z` — an instant strictly *before*
`expiresAt` — no longer returns the warning: SQLite's `datetime()` compares
at whole-second granularity, and `'12:30:00' > '12:30:00'` is false. -/
theorem C3_counterexample :
    (findRow sC3.store "W3").map Row.expiresISO = some "2024-05-01T12:30:00.500Z" ∧
    (findRow sC3.store "W3").map Row.active = some true ∧
    parseISO "2024-05-01T12:30:00.500Z" = some 1714566600500 ∧
    (1714566600200 : Int) < 1714566600500 ∧
    (getActive sC3.store 1714566600200).map Row.id = [] :=
  ⟨by decide, by decide, by decide, by decide, by decide⟩

/-- C3 (amended): for every issue command that passes validation and whose
`issuedISO` parses, the stored warning's `expiresAt` is exactly
`issuedAt + durationMinutes` (epoch milliseconds plus `minutes * 60000`,
rendered by `toISOString`), the row is stored active, and immediately after
the issue the active-warnings query returns it at every instant lying in an
*earlier whole second* than `expiresAt` (the query compares SQLite
`datetime()` values, i.e. floor-seconds — sub-second instants before
`expiresAt` inside its final second are already excluded). -/
theorem C3_amended (s : SysState) (p : Payload) (now t e : Int)
    (wid iso xs : String) (m : ℚ)
    (hid : p.id = some wid) (hiso : p.issuedISO = some iso) (hm : p.minutes = some m)
    (hv : validateIssue p = .ok ())
    (ht : parseISO iso = some t)
    (he : e = ratTrunc ((t : ℚ) + m * 60000))
    (hf : toISOString e = some xs) :
    findRow (handleIssue false now p s).store wid =
      some { mkRow p xs with created_at := now / 1000 } ∧
    parseISO (mkRow p xs).expiresISO = some e ∧
    (mkRow p xs).active = true ∧
    ∀ q : Int, q / 1000 < e / 1000 →
      ({ mkRow p xs with created_at := now / 1000 } : Row) ∈
        getActive (handleIssue false now p s).store q := by
  have hc : computeExpiresISO (p.issuedISO.getD "") (p.minutes.getD 0) = some xs := by
    rw [hiso, hm]
    show computeExpiresISO iso m = some xs
    unfold computeExpiresISO
    rw [ht]
    show toISOString (ratTrunc ((t : ℚ) + m * 60000)) = some xs
    rw [← he]
    exact hf
  have hpx : parseISO xs = some e := parseISO_toISOString e xs hf
  have hwid : wid = (mkRow p xs).id := by
    show wid = p.id.getD ""
    rw [hid]
    rfl
  refine ⟨?_, hpx, rfl, ?_⟩
  · rw [handleIssue_success p now s xs hv hc, hwid]
    show findRow (insertWarning now s.store (mkRow p xs)) ((mkRow p xs).id) = _
    exact findRow_insertWarning now s.store (mkRow p xs)
  · intro q hq
    rw [handleIssue_success p now s xs hv hc]
    show ({ mkRow p xs with created_at := now / 1000 } : Row) ∈
      List.filter (rowActiveAt q) (insertWarning now s.store (mkRow p xs))
    refine List.mem_filter.2 ⟨?_, ?_⟩
    · exact List.mem_append_right _ (List.mem_singleton.2 rfl)
    · show rowActiveAt q { mkRow p xs with created_at := now / 1000 } = true
      unfold rowActiveAt
      rw [show sqliteSecs ({ mkRow p xs with created_at := now / 1000 } : Row).expiresISO =
        some (e / 1000) from by
          show sqliteSecs xs = some (e / 1000)
          unfold sqliteSecs
          rw [hpx]
          rfl]
      show (true && decide (q / 1000 < e / 1000)) = true
      rw [Bool.true_and]
      exact decide_eq_true hq

/-- C3 (witness): the amended claim instantiated on `W1` issued at
`12:00:00Z` for one minute (`expiresAt = 12:01:00.000Z`). -/
theorem C3_witness :
    findRow (handleIssue false t0 pW1 initState).store "W1" =
      some { mkRow pW1 "2024-05-01T12:01:00.000Z" with created_at := t0 / 1000 } ∧
    parseISO (mkRow pW1 "2024-05-01T12:01:00.000Z").expiresISO = some 1714564860000 ∧
    (mkRow pW1 "2024-05-01T12:01:00.000Z").active = true ∧
    ∀ q : Int, q / 1000 < 1714564860000 / 1000 →
      ({ mkRow pW1 "2024-05-01T12:01:00.000Z" with created_at := t0 / 1000 } : Row) ∈
        getActive (handleIssue false t0 pW1 initState).store q :=
  C3_amended initState pW1 t0 1714564800000 1714564860000 "W1"
    "2024-05-01T12:00:00.000Z" "2024-05-01T12:01:00.000Z" 1
    (by rfl) (by rfl) (by rfl) (by rfl) (by decide) (by decide) (by decide)

/-! ## C7 — bootstrap on connect -/

/-- Well-formedness of the client registry: ids below the counter and
pairwise distinct. -/
def cidsOK (s : SysState) : Prop :=
  (∀ c ∈ s.clients, c.cid < s.nextCid) ∧
  List.Pairwise (fun a b : Client => a.cid ≠ b.cid) s.clients

theorem deliver_cid (m : Msg) (c : Client) : (deliver m c).cid = c.cid := by
  unfold deliver
  split <;> rfl

/-- Each step either keeps the registry, delivers one non-bootstrap message
to it, appends one freshly numbered client, or removes clients; the counter
grows only on connect. -/
theorem step_clients_shape (s : SysState) (e : Event) :
    ((step s e).clients = s.clients ∧ (step s e).nextCid = s.nextCid) ∨
    (∃ m, isBootstrapMsg m = false ∧ (step s e).clients = s.clients.map (deliver m) ∧
      (step s e).nextCid = s.nextCid) ∨
    (∃ nc : Client, nc.cid = s.nextCid ∧ (step s e).clients = s.clients ++ [nc] ∧
      (step s e).nextCid = s.nextCid + 1) ∨
    (∃ q, (step s e).clients = s.clients.filter q ∧ (step s e).nextCid = s.nextCid) := by
  cases e with
  | connect tr now => exact Or.inr (Or.inr (Or.inl ⟨_, rfl, rfl, rfl⟩))
  | disconnect cid => exact Or.inr (Or.inr (Or.inr ⟨_, rfl, rfl⟩))
  | expireCmd i => exact Or.inr (Or.inl ⟨Msg.expireEv i, rfl, rfl, rfl⟩)
  | issueCmd p f now =>
      have hs : step s (Event.issueCmd p f now) = handleIssue f now p s := rfl
      rw [hs]
      unfold handleIssue
      cases hval : validateIssue p with
      | error msg => exact Or.inl ⟨rfl, rfl⟩
      | ok u =>
        cases u
        cases hcee : computeExpiresISO (p.issuedISO.getD "") (p.minutes.getD 0) with
        | none => exact Or.inl ⟨rfl, rfl⟩
        | some expISO =>
          cases f with
          | true => exact Or.inl ⟨rfl, rfl⟩
          | false => exact Or.inr (Or.inl ⟨Msg.issueEv p expISO, rfl, rfl, rfl⟩)
  | fire i now =>
      have hs : step s (Event.fire i now) =
        (match s.timers[i]? with
          | some t =>
              if t.fireAt ≤ now then
                broadcastMsg (Msg.expireEv t.id)
                  { s with store := expireById s.store t.id,
                           timers := s.timers.eraseIdx i }
              else s
          | none => s) := rfl
      rw [hs]
      cases ht : s.timers[i]? with
      | none => exact Or.inl ⟨rfl, rfl⟩
      | some t =>
        dsimp only
        by_cases hle : t.fireAt ≤ now
        · rw [if_pos hle]
          exact Or.inr (Or.inl ⟨Msg.expireEv t.id, rfl, rfl, rfl⟩)
        · rw [if_neg hle]
          exact Or.inl ⟨rfl, rfl⟩

theorem cidsOK_step (s : SysState) (e : Event) (h : cidsOK s) : cidsOK (step s e) := by
  obtain ⟨hb, hp⟩ := h
  rcases step_clients_shape s e with ⟨hc, hn⟩ | ⟨m, -, hc, hn⟩ | ⟨nc, hnc, hc, hn⟩ | ⟨q, hc, hn⟩
  · exact ⟨fun c hcm => by rw [hn]; exact hb c (hc ▸ hcm), hc ▸ hp⟩
  · constructor
    · intro c hcm
      rw [hc] at hcm
      rcases List.mem_map.1 hcm with ⟨c0, hc0, rfl⟩
      rw [hn, deliver_cid]
      exact hb c0 hc0
    · rw [hc, List.pairwise_map]
      exact hp.imp (fun {a b} hab => by
        rw [deliver_cid, deliver_cid]
        exact hab)
  · constructor
    · intro c hcm
      rw [hc] at hcm
      rw [hn]
      rcases List.mem_append.1 hcm with hin | hin
      · exact Nat.lt_succ_of_lt (hb c hin)
      · rw [List.mem_singleton.1 hin, hnc]
        exact Nat.lt_succ_self _
    · rw [hc, List.pairwise_append]
      refine ⟨hp, List.pairwise_singleton _ _, ?_⟩
      intro a ha b hbm
      rw [List.mem_singleton.1 hbm, hnc]
      exact Nat.ne_of_lt (hb a ha)
  · constructor
    · intro c hcm
      rw [hc] at hcm
      rw [hn]
      exact hb c (List.mem_filter.1 hcm).1
    · rw [hc]
      exact hp.sublist (List.filter_sublist _)

theorem nextCid_mono (s : SysState) (e : Event) : s.nextCid ≤ (step s e).nextCid := by
  rcases step_clients_shape s e with ⟨-, hn⟩ | ⟨m, -, -, hn⟩ | ⟨nc, -, -, hn⟩ | ⟨q, -, hn⟩ <;>
    omega

theorem findClient_map_deliver (m : Msg) (l : List Client) (cid : Nat) :
    (l.map (deliver m)).find? (fun c => c.cid == cid) =
      ((l.find? (fun c => c.cid == cid)).map (deliver m)) := by
  induction l with
  | nil => rfl
  | cons a rest ih =>
    rw [List.map_cons]
    by_cases hp : (a.cid == cid) = true
    · rw [List.find?_cons_of_pos (p := fun c : Client => c.cid == cid) _ hp,
        List.find?_cons_of_pos (p := fun c : Client => c.cid == cid) _
          (show ((deliver m a).cid == cid) = true by rw [deliver_cid]; exact hp)]
      rfl
    · rw [List.find?_cons_of_neg (p := fun c : Client => c.cid == cid) _ hp,
        List.find?_cons_of_neg (p := fun c : Client => c.cid == cid) _
          (show ¬ ((deliver m a).cid == cid) = true by rw [deliver_cid]; exact hp)]
      exact ih

/-- Two registered clients with the same id are the same client. -/
theorem cid_unique (l : List Client)
    (hp : List.Pairwise (fun a b : Client => a.cid ≠ b.cid) l)
    (c x : Client) (hc : c ∈ l) (hx : x ∈ l) (heq : x.cid = c.cid) : x = c := by
  induction l with
  | nil => cases hc
  | cons a rest ih =>
    obtain ⟨ha, hrest⟩ := List.pairwise_cons.1 hp
    rcases List.mem_cons.1 hc with rfl | hc'
    · rcases List.mem_cons.1 hx with rfl | hx'
      · rfl
      · exact absurd heq.symm (ha x hx')
    · rcases List.mem_cons.1 hx with rfl | hx'
      · exact absurd heq (ha c hc')
      · exact ih hrest hc' hx'

theorem find?_eq_of_unique (l : List Client) (cid : Nat) (c : Client) (hc : c ∈ l)
    (hcc : (c.cid == cid) = true)
    (huniq : ∀ x ∈ l, (x.cid == cid) = true → x = c) :
    l.find? (fun x => x.cid == cid) = some c := by
  induction l with
  | nil => cases hc
  | cons a rest ih =>
    by_cases hpa : (a.cid == cid) = true
    · rw [List.find?_cons_of_pos (p := fun x : Client => x.cid == cid) _ hpa,
        huniq a (List.mem_cons_self _ _) hpa]
    · rw [List.find?_cons_of_neg (p := fun x : Client => x.cid == cid) _ hpa]
      rcases List.mem_cons.1 hc with rfl | hc'
      · exact absurd hcc hpa
      · exact ih hc' (fun x hx => huniq x (List.mem_cons_of_mem _ hx))

/-- A client id that is absent (and within the used range) stays absent. -/
theorem findClient_step_none (s : SysState) (e : Event) (cid : Nat)
    (hcid : cid < s.nextCid) (hnone : findClient s cid = none) :
    findClient (step s e) cid = none := by
  unfold findClient at hnone ⊢
  rcases step_clients_shape s e with ⟨hc, -⟩ | ⟨m, -, hc, -⟩ | ⟨nc, hnc, hc, -⟩ | ⟨q, hc, -⟩
  · rw [hc, hnone]
  · rw [hc, findClient_map_deliver, hnone]
    rfl
  · rw [hc, List.find?_append, hnone]
    show ([nc].find? (fun c => c.cid == cid)) = none
    rw [List.find?_eq_none]
    intro x hx
    rw [List.mem_singleton.1 hx]
    simp only [beq_iff_eq, hnc]
    omega
  · rw [hc]
    rw [List.find?_eq_none] at hnone ⊢
    intro x hx
    exact hnone x (List.mem_filter.1 hx).1

/-- A present client either disappears or gets only non-bootstrap messages
appended to its log by one step. -/
theorem findClient_step_some (s : SysState) (e : Event) (cid : Nat) (c : Client)
    (hOK : cidsOK s) (hfind : findClient s cid = some c) :
    findClient (step s e) cid = none ∨
    ∃ ms, findClient (step s e) cid = some { c with log := c.log ++ ms } ∧
      ∀ m ∈ ms, isBootstrapMsg m = false := by
  unfold findClient at hfind
  have hmem : c ∈ s.clients := List.mem_of_find?_eq_some hfind
  have hpc : (c.cid == cid) = true :=
    List.find?_some (p := fun c : Client => c.cid == cid) hfind
  have hcceq : c.cid = cid := by simpa using hpc
  have hcid : cid < s.nextCid := by
    have := hOK.1 c hmem
    omega
  have huniq : ∀ x ∈ s.clients, (x.cid == cid) = true → x = c := by
    intro x hx hxe
    refine cid_unique s.clients hOK.2 c x hmem hx ?_
    have : x.cid = cid := by simpa using hxe
    omega
  unfold findClient
  rcases step_clients_shape s e with ⟨hc, -⟩ | ⟨m, hm, hc, -⟩ | ⟨nc, hnc, hc, -⟩ | ⟨q, hc, -⟩
  · refine Or.inr ⟨[], ?_, by simp⟩
    rw [hc, hfind]
    simp
  · refine Or.inr ⟨(if receivesBroadcast c then [m] else []), ?_, ?_⟩
    · rw [hc, findClient_map_deliver, hfind]
      show some (deliver m c) = _
      have hd : deliver m c = { c with log := c.log ++
          (if receivesBroadcast c then [m] else []) } := by
        unfold deliver
        split
        · rfl
        · simp
      rw [hd]
    · intro x hx
      split at hx
      · rw [List.mem_singleton.1 hx]
        exact hm
      · cases hx
  · refine Or.inr ⟨[], ?_, by simp⟩
    rw [hc, List.find?_append, hfind]
    simp
  · rw [hc]
    by_cases hqc : q c = true
    · refine Or.inr ⟨[], ?_, by simp⟩
      rw [find?_eq_of_unique (s.clients.filter q) cid c
        (List.mem_filter.2 ⟨hmem, hqc⟩) hpc
        (fun x hx hxe => huniq x (List.mem_filter.1 hx).1 hxe)]
      simp
    · refine Or.inl ?_
      rw [List.find?_eq_none]
      intro x hx hpx
      have hxc := huniq x (List.mem_filter.1 hx).1 hpx
      subst hxc
      exact hqc (List.mem_filter.1 hx).2

theorem findClient_none_runTrace (evs : List Event) (s : SysState) (cid : Nat)
    (hcid : cid < s.nextCid) (hnone : findClient s cid = none) :
    findClient (runTrace evs s) cid = none := by
  induction evs generalizing s with
  | nil => exact hnone
  | cons e rest ih =>
    show findClient (runTrace rest (step s e)) cid = none
    exact ih (step s e) (lt_of_lt_of_le hcid (nextCid_mono s e))
      (findClient_step_none s e cid hcid hnone)

/-- Along any trace, a client's log keeps its bootstrap head and collects
only non-bootstrap messages after it (or the client disconnects). -/
theorem bootstrap_log_stable (evs : List Event) (s : SysState) (cid : Nat)
    (hOK : cidsOK s) (hcid : cid < s.nextCid) :
    ∀ (b : List Row) (rest0 : List Msg) (c : Client),
    findClient s cid = some c →
    c.log = Msg.bootstrap b :: rest0 → (∀ m ∈ rest0, isBootstrapMsg m = false) →
    findClient (runTrace evs s) cid = none ∨
    ∃ c' rest, findClient (runTrace evs s) cid = some c' ∧
      c'.log = Msg.bootstrap b :: rest ∧ ∀ m ∈ rest, isBootstrapMsg m = false := by
  induction evs generalizing s with
  | nil =>
    intro b rest0 c hfind hlog hrest
    exact Or.inr ⟨c, rest0, hfind, hlog, hrest⟩
  | cons e rest ih =>
    intro b rest0 c hfind hlog hrest
    show findClient (runTrace rest (step s e)) cid = none ∨ _
    have hOK' := cidsOK_step s e hOK
    have hcid' := lt_of_lt_of_le hcid (nextCid_mono s e)
    rcases findClient_step_some s e cid c hOK hfind with hnone | ⟨ms, hfind', hms⟩
    · exact Or.inl (findClient_none_runTrace rest (step s e) cid hcid' hnone)
    · refine ih (step s e) hOK' hcid' b (rest0 ++ ms) _ hfind' ?_ ?_
      · rw [hlog]
        simp
      · intro m hm
        rcases List.mem_append.1 hm with h1 | h2
        · exact hrest m h1
        · exact hms m h2

theorem cidsOK_runTrace (evs : List Event) (s : SysState) (h : cidsOK s) :
    cidsOK (runTrace evs s) := by
  induction evs generalizing s with
  | nil => exact h
  | cons e rest ih => exact ih (step s e) (cidsOK_step s e h)

/-- C7: a subscriber connecting (on either transport) after the events
`evs1` receives as its very first message exactly one bootstrap whose
content is the store's active set at connection time; every message it ever
receives afterwards (over any continuation `evs2`) is an issue/expire
broadcast, never another bootstrap — unless it has disconnected, in which
case it has no registry entry at all. -/
theorem C7_bootstrap_once (evs1 evs2 : List Event) (tr : Transport) (now : Int) :
    findClient (runTrace evs2 (step (runTrace evs1 initState) (Event.connect tr now)))
      (runTrace evs1 initState).nextCid = none ∨
    ∃ c' rest,
      findClient (runTrace evs2 (step (runTrace evs1 initState) (Event.connect tr now)))
        (runTrace evs1 initState).nextCid = some c' ∧
      c'.log = Msg.bootstrap (getActive (runTrace evs1 initState).store now) :: rest ∧
      ∀ m ∈ rest, isBootstrapMsg m = false := by
  have hOK0 : cidsOK initState := by
    constructor
    · intro c hc
      cases hc
    · exact List.Pairwise.nil
  have hOK1 : cidsOK (runTrace evs1 initState) :=
    cidsOK_runTrace evs1 initState hOK0
  set s1 := runTrace evs1 initState with hs1
  have hOK2 : cidsOK (step s1 (Event.connect tr now)) :=
    cidsOK_step s1 _ hOK1
  have hcid2 : s1.nextCid < (step s1 (Event.connect tr now)).nextCid := by
    show s1.nextCid < s1.nextCid + 1
    exact Nat.lt_succ_self _
  have hfind : findClient (step s1 (Event.connect tr now)) s1.nextCid =
      some { cid := s1.nextCid, transport := tr, readyState := 1,
             log := [Msg.bootstrap (getActive s1.store now)] } := by
    unfold findClient
    show (s1.clients ++ [_]).find? (fun c : Client => c.cid == s1.nextCid) = _
    rw [List.find?_append]
    have h1 : s1.clients.find? (fun c : Client => c.cid == s1.nextCid) = none := by
      rw [List.find?_eq_none]
      intro x hx
      have := hOK1.1 x hx
      simp only [beq_iff_eq]
      omega
    rw [h1]
    show (List.find? (fun c : Client => c.cid == s1.nextCid) [_]) = _
    rw [List.find?_cons_of_pos (p := fun c : Client => c.cid == s1.nextCid) _ (by simp)]
  exact bootstrap_log_stable evs2 (step s1 (Event.connect tr now)) s1.nextCid hOK2 hcid2
    (getActive s1.store now) [] _ hfind rfl (by intro m hm; cases hm)

/-- C7 (witness): the property at the empty history, an immediate connect,
and no further events. -/
theorem C7_witness :
    findClient (runTrace [] (step (runTrace [] initState) (Event.connect Transport.ws t0)))
      (runTrace [] initState).nextCid = none ∨
    ∃ c' rest,
      findClient (runTrace [] (step (runTrace [] initState) (Event.connect Transport.ws t0)))
        (runTrace [] initState).nextCid = some c' ∧
      c'.log = Msg.bootstrap (getActive (runTrace [] initState).store t0) :: rest ∧
      ∀ m ∈ rest, isBootstrapMsg m = false :=
  C7_bootstrap_once [] [] Transport.ws t0
